import Mathlib

/-!
Verification of the `exec` command construction logic of crun (src/exec.c).

The development shallowly embeds the code: C strings become `String`/`List Char`
values, the NULL-terminated `char **` arrays become Lean lists (with
`Option String` entries where the code can store a NULL pointer inside the
array), fatal `libcrun_fail_with_error` calls become `Except` errors, and the
one environment read (`LISTEN_FDS`) becomes an explicit `Option String`
parameter.  Machine integers are modelled as `Int`/`Nat` with the explicit
clamping / wrapping the C library functions perform.
-/

/-- Error kinds of the exec command, following section 7 of the specification.
`MissingContainerId` is the fatal "please specify a ID for the container"
error raised at `ARGP_KEY_NO_ARGS` (exec.c line 157-158); `InvalidUid`,
`InvalidGid` and `InvalidUserspec` are the three fatal errors of
`make_oci_process_user` (exec.c lines 169-198); `ArgumentCountError` is the
positional-argument-count failure of the mode resolver; `ArgpUsage` stands
for the fatal usage errors argp itself raises (unknown option, missing
mandatory option argument). -/
inductive ExecError where
  | MissingContainerId
  | ArgumentCountError
  | InvalidUid
  | InvalidGid
  | InvalidUserspec
  | ArgpUsage
deriving DecidableEq

deriving instance DecidableEq for Except

/-- Characters accepted by C `isspace` in the default locale, as skipped by
`strtol`/`strtoul` before the optional sign. -/
def isSpaceChar (c : Char) : Bool :=
  c == ' ' || c == '\t' || c == '\n' || c == '\x0b' || c == '\x0c' || c == '\r'

/-- Value of a list of decimal digit characters, most significant first. -/
def dec_val (ds : List Char) : Nat :=
  ds.foldl (fun a c => a * 10 + (c.toNat - 48)) 0

/-- LONG_MAX on the 64-bit targets crun builds for. -/
def LONG_MAX : Int := 9223372036854775807

/-- LONG_MIN on the 64-bit targets crun builds for. -/
def LONG_MIN : Int := -9223372036854775808

/-- ULONG_MAX on the 64-bit targets crun builds for. -/
def ULONG_MAX : Nat := 18446744073709551615

/-- Result of C `strtol`: the parsed value, the suffix the end pointer is
left at, and whether `errno` was set to `ERANGE`. -/
structure StrtolRes where
  value : Int
  rest : List Char
  erange : Bool
deriving DecidableEq

/-- Model of C `strtol(nptr, &endptr, 10)` (also `strtoll`, since
`long` = `long long` on the 64-bit targets): skip whitespace, accept one
optional sign, consume the maximal run of decimal digits.  If there are no
digits the value is 0 and the end pointer is reset to the start of the
string; on overflow the value is clamped to `LONG_MAX`/`LONG_MIN` and
`erange` is set. -/
def strtol (cs0 : List Char) : StrtolRes :=
  let cs1 := cs0.dropWhile isSpaceChar
  let neg : Bool := cs1.head? = some '-'
  let cs2 := if cs1.head? = some '-' ∨ cs1.head? = some '+' then cs1.tail else cs1
  let ds := cs2.takeWhile Char.isDigit
  let rest := cs2.dropWhile Char.isDigit
  if ds.isEmpty then ⟨0, cs0, false⟩
  else
    let v : Int := if neg then -(dec_val ds : Int) else (dec_val ds : Int)
    if v > LONG_MAX then ⟨LONG_MAX, rest, true⟩
    else if v < LONG_MIN then ⟨LONG_MIN, rest, true⟩
    else ⟨v, rest, false⟩

/-- Model of C `strtoul(nptr, NULL, 10)` on 64-bit targets: like `strtol`
but the value is an `unsigned long`; a leading minus sign negates the value
in unsigned (mod 2^64) arithmetic, and overflow clamps to `ULONG_MAX`. -/
def strtoul64 (cs0 : List Char) : Nat :=
  let cs1 := cs0.dropWhile isSpaceChar
  let neg : Bool := cs1.head? = some '-'
  let cs2 := if cs1.head? = some '-' ∨ cs1.head? = some '+' then cs1.tail else cs1
  let ds := cs2.takeWhile Char.isDigit
  if ds.isEmpty then 0
  else if dec_val ds > ULONG_MAX then ULONG_MAX
  else if neg then (2 ^ 64 - dec_val ds) % 2 ^ 64
  else dec_val ds

/-- Conversion of an `unsigned long` value to `int`, as performed by the
assignment `exec_options.preserve_fds = strtoul (...)`.  The conversion is
implementation-defined in C; this models the two's-complement wraparound
every target crun supports uses. -/
def toInt32 (n : Nat) : Int :=
  if n % 2 ^ 32 < 2 ^ 31 then ((n % 2 ^ 32 : Nat) : Int)
  else ((n % 2 ^ 32 : Nat) : Int) - 2 ^ 32

/-- The value stored into the `int` field `exec_options.preserve_fds` by the
`OPTION_PRESERVE_FDS` case of `parse_opt` (exec.c lines 125-127):
`strtoul (arg, NULL, 10)` with no error checking, truncated to `int`. -/
def strtoul_int (s : String) : Int := toInt32 (strtoul64 s.data)

/-- Resolved numeric identity, embedding `oci_container_process_user`
(fields set by `make_oci_process_user`).  The numeric field widths of the
generated OCI structure are not part of src; Modelled from the spec: the
`uid`/`gid` fields hold the parsed integer values. -/
structure oci_container_process_user where
  uid : Int
  gid : Int
deriving DecidableEq

/-- Embedding of `make_oci_process_user` (exec.c lines 169-198) on the
character list of the userspec string.  `none` input is the NULL pointer
(no `-u` flag).  The code zero-initialises the structure, parses the UID
with `strtol`, fails with "invalid UID specified" on `ERANGE`, returns
`{uid, gid: 0}` if the string ends there, fails with "invalid USERSPEC
specified" if the next character is not a colon, then parses the GID the
same way ("invalid GID specified" on `ERANGE`) and requires the string to
end after it. -/
def make_oci_process_user_chars (userspec : Option (List Char)) :
    Except ExecError (Option oci_container_process_user) :=
  match userspec with
  | none => .ok none
  | some s =>
    let r1 := strtol s
    if r1.erange then .error .InvalidUid
    else
      match r1.rest with
      | [] => .ok (some ⟨r1.value, 0⟩)
      | c :: tl =>
        if c ≠ ':' then .error .InvalidUserspec
        else
          let r2 := strtol tl
          if r2.erange then .error .InvalidGid
          else if r2.rest.isEmpty then .ok (some ⟨r1.value, r2.value⟩)
          else .error .InvalidUserspec

/-- `make_oci_process_user` on `String` values. -/
def make_oci_process_user (userspec : Option String) :
    Except ExecError (Option oci_container_process_user) :=
  make_oci_process_user_chars (userspec.map String.data)

/-- Embedding of `struct exec_options_s` (exec.c lines 34-48).  The
`env`/`cap` NULL-terminated growable arrays are lists; `env_size`/`cap_size`
are their lengths.  The static zero initialisation of the global
`exec_options` is the default value of every field. -/
structure exec_options_s where
  tty : Bool := false
  detach : Bool := false
  preserve_fds : Int := 0
  process : Option String := none
  console_socket : Option String := none
  pid_file : Option String := none
  cwd : Option String := none
  user : Option String := none
  env : List String := []
  cap : List String := []
deriving DecidableEq

/-- The zero-initialised static `exec_options` record. -/
def exec_options_init : exec_options_s := {}

/-- Embedding of `append_env` (exec.c lines 77-86): grow the
NULL-terminated array by one entry, in call order, no validation. -/
def append_env (env : List String) (arg : String) : List String := env ++ [arg]

/-- Embedding of `append_cap` (exec.c lines 88-97): grow the
NULL-terminated array by one entry, in call order. -/
def append_cap (cap : List String) (arg : String) : List String := cap ++ [arg]

/-- The `tty` value computed by the `'t'` case of `parse_opt` (exec.c line
138): `arg == NULL || (strcmp (arg, "false") != 0 && strcmp (arg, "no") != 0)`. -/
def parseTty (arg : Option String) : Bool :=
  match arg with
  | none => true
  | some a => decide (a ≠ "false") && decide (a ≠ "no")

/-- Effect of one short-option key of `parse_opt` that takes a mandatory
argument (keys `'p'`, `'u'`, `'e'`, `'c'`, exec.c lines 133-151). -/
def applyShort (c : Char) (a : String) (opts : exec_options_s) : exec_options_s :=
  if c = 'p' then { opts with process := some a }
  else if c = 'u' then { opts with user := some a }
  else if c = 'e' then { opts with env := append_env opts.env a }
  else if c = 'c' then { opts with cap := append_cap opts.cap a }
  else opts

/-- Outcome of handling one option token: either the options record is
fully updated, or the option still needs the following `argv` element as
its argument. -/
inductive OptOutcome where
  | done (opts : exec_options_s)
  | needNext (f : String → exec_options_s)

/-- Model of getopt short-option cluster processing for the option table of
exec.c (lines 60-73), dispatching to the `parse_opt` cases: `'d'` takes no
argument, `'t'` takes an optional argument (bound only when attached to the
same token, per getopt semantics), and `'p' 'u' 'e' 'c'` take a mandatory
argument (rest of the token if non-empty, otherwise the next `argv`
element).  Any other character is an unknown option, a fatal argp usage
error. -/
def parse_opt_short : List Char → exec_options_s → Except ExecError OptOutcome
  | [], opts => .ok (.done opts)
  | 'd' :: rest, opts => parse_opt_short rest { opts with detach := true }
  | 't' :: rest, opts =>
      .ok (.done { opts with
        tty := parseTty (if rest.isEmpty then none else some (String.mk rest)) })
  | c :: rest, opts =>
      if c = 'p' ∨ c = 'u' ∨ c = 'e' ∨ c = 'c' then
        match rest with
        | [] => .ok (.needNext (fun a => applyShort c a opts))
        | _ :: _ => .ok (.done (applyShort c (String.mk rest) opts))
      else .error .ArgpUsage

/-- Model of long-option processing for the option table of exec.c.  `body`
is the token with the leading `"--"` removed; an `=`-attached argument is
split off.  Mandatory-argument options accept the attached form or consume
the next `argv` element; `--tty` binds its optional argument only in the
attached form; `--detach` takes no argument.  `--preserve-fds` is declared
with no argument in the table, and its handler fetches the next `argv`
element through `argp_mandatory_argument` (crun.c, outside src; modelled
from the spec table entry "`--preserve-fds` | int") and stores
`strtoul (arg, NULL, 10)` with no validation. -/
def parse_opt_long (body : List Char) (opts : exec_options_s) :
    Except ExecError OptOutcome :=
  let name := body.takeWhile (fun c => !(c == '='))
  let eqRest := body.dropWhile (fun c => !(c == '='))
  let attached : Option String :=
    match eqRest with
    | [] => none
    | _ :: v => some (String.mk v)
  let withArg : (String → exec_options_s) → Except ExecError OptOutcome :=
    fun f =>
      match attached with
      | some a => .ok (.done (f a))
      | none => .ok (.needNext f)
  if name = "console-socket".data then
    withArg (fun a => { opts with console_socket := some a })
  else if name = "tty".data then
    .ok (.done { opts with tty := parseTty attached })
  else if name = "process".data then
    withArg (fun a => { opts with process := some a })
  else if name = "cwd".data then
    withArg (fun a => { opts with cwd := some a })
  else if name = "detach".data then
    match attached with
    | none => .ok (.done { opts with detach := true })
    | some _ => .error .ArgpUsage
  else if name = "user".data then
    withArg (fun a => { opts with user := some a })
  else if name = "env".data then
    withArg (fun a => { opts with env := append_env opts.env a })
  else if name = "cap".data then
    withArg (fun a => { opts with cap := append_cap opts.cap a })
  else if name = "pid-file".data then
    withArg (fun a => { opts with pid_file := some a })
  else if name = "preserve-fds".data then
    match attached with
    | some _ => .error .ArgpUsage
    | none => .ok (.needNext (fun a => { opts with preserve_fds := strtoul_int a }))
  else .error .ArgpUsage

/-- A token that getopt treats as a non-option argument: the empty string,
`"-"` alone, or anything not starting with `'-'`. -/
def isPositionalTok (s : String) : Bool :=
  match s.data with
  | '-' :: _ :: _ => false
  | _ => true

/-- Model of the `argp_parse (&run_argp, argc, argv, ARGP_IN_ORDER,
&first_arg, ...)` call (exec.c line 208) with the `parse_opt` callback,
over the `argv` elements after the program name.  glibc argp semantics for
this parser: options are processed in order; `"--"` ends option processing;
the first non-option argument is delivered as `ARGP_KEY_ARG`, which
`parse_opt` does not consume (it returns `ARGP_ERR_UNKNOWN`), so parsing
stops there and the argument index is returned — the result carries the
updated options and the unconsumed suffix of `argv`.  If every element is
consumed as an option, argp delivers `ARGP_KEY_NO_ARGS` and `parse_opt`
fails fatally with "please specify a ID for the container" (exec.c lines
157-158), the `MissingContainerId` error. -/
def argpLoop : List String → Bool → exec_options_s →
    Except ExecError (exec_options_s × List String)
  | [], _, _ => .error .MissingContainerId
  | tok :: rest, quoted, opts =>
    if quoted then .ok (opts, tok :: rest)
    else
      match tok.data with
      | [] => .ok (opts, tok :: rest)
      | '-' :: [] => .ok (opts, tok :: rest)
      | '-' :: '-' :: [] => argpLoop rest true opts
      | '-' :: '-' :: c :: cs =>
        match parse_opt_long (c :: cs) opts with
        | .error e => .error e
        | .ok (.done opts') => argpLoop rest quoted opts'
        | .ok (.needNext f) =>
          match rest with
          | [] => .error .ArgpUsage
          | a :: rest' => argpLoop rest' quoted (f a)
      | '-' :: c :: cs =>
        match parse_opt_short (c :: cs) opts with
        | .error e => .error e
        | .ok (.done opts') => argpLoop rest quoted opts'
        | .ok (.needNext f) =>
          match rest with
          | [] => .error .ArgpUsage
          | a :: rest' => argpLoop rest' quoted (f a)
      | _ :: _ => .ok (opts, tok :: rest)

/-- `argp_parse` over the full `argv` of the subcommand (element 0 is the
subcommand name `"exec"`, skipped by argp). -/
def argpParse (argv : List String) :
    Except ExecError (exec_options_s × List String) :=
  argpLoop argv.tail false exec_options_init

/-- Modelled from the spec: `crun_assert_n_args` is declared outside src
(crun.h / crun.c); exec.c line 209 invokes it as
`crun_assert_n_args (argc - first_arg, exec_options.process ? 1 : 2, -1)`.
Per specification sections 4.4 and 8: file mode requires exactly one
positional argument, zero or two-or-more being the argument-count error;
inline mode requires at least two, exactly one being the
missing-container-identifier error.  `n` is the number of unconsumed
positional arguments, `fileMode` whether a process file was supplied. -/
def crun_assert_n_args (n : Nat) (fileMode : Bool) : Option ExecError :=
  if fileMode then
    if n = 1 then none else some .ArgumentCountError
  else
    if 2 ≤ n then none else some .MissingContainerId

/-- Modelled from the spec: the `libcrun_context_t` fields the exec command
fills (exec.c lines 204-221 assign them; the structure itself lives outside
src).  Per specification section 3, the ExecutionContext carries the detach
flag, the optional console-socket and pid-file paths, the total preserve-fd
count and the target container identifier (set by `init_libcrun_context`
from `argv[first_arg]`). -/
structure libcrun_context_t where
  detach : Bool
  console_socket : Option String
  pid_file : Option String
  preserve_fds : Int
  containerId : String
deriving DecidableEq

/-- The `LISTEN_FDS` contribution added at exec.c lines 220-221: nothing is
added when the variable is absent; otherwise `strtoll (getenv
("LISTEN_FDS"), NULL, 10)` is added with no error checking. -/
def listen_fds_value (listen : Option String) : Int :=
  match listen with
  | none => 0
  | some s => (strtol s.data).value

/-- A string that is an (optionally signed) decimal integer in its
entirety. -/
def isIntegerString (cs : List Char) : Bool :=
  let body :=
    match cs with
    | '-' :: r => r
    | '+' :: r => r
    | _ => cs
  !body.isEmpty && body.all Char.isDigit

/-- The integer value of an integer string (0 when the shape is wrong). -/
def integerStringValue (cs : List Char) : Int :=
  match cs with
  | '-' :: r => -(dec_val r : Int)
  | '+' :: r => (dec_val r : Int)
  | _ => (dec_val cs : Int)

/-- Follows the spec's words, for comparison with the code: "the LISTEN_FDS
contribution is 0 when the variable is absent or not parseable as an
integer", otherwise it is the integer value of the variable. -/
def spec_listen_fds_value (listen : Option String) : Int :=
  match listen with
  | none => 0
  | some s => if isIntegerString s.data then integerStringValue s.data else 0

/-- Content-level embedding of `oci_container_process_capabilities`: the
five capability name lists filled at exec.c lines 243-263. -/
structure oci_container_process_capabilities where
  effective : List String
  inheritable : List String
  bounding : List String
  ambient : List String
  permitted : List String
deriving DecidableEq

/-- The capability field of the process: attached only when `cap_size > 0`
(exec.c line 243); all five lists carry the collected `--cap` names in
order (`effective` is the collected array itself, the other four are
`dup_array` copies with equal content). -/
def build_capabilities_content (cap : List String) :
    Option oci_container_process_capabilities :=
  if cap.isEmpty then none
  else some { effective := cap, inheritable := cap, bounding := cap,
              ambient := cap, permitted := cap }

/-- Embedding of the `oci_container_process` fields assigned at exec.c
lines 227-264.  `args` is the allocated `char **` array as written by the
code: the loop stores `argv[first_arg + i + 1]` for `i < argc - first_arg`
(the last iteration reads the NULL terminator `argv[argc]`, hence the
`Option`), then a final NULL sentinel; `args_len` is the separately stored
length field. -/
structure oci_container_process where
  args_len : Nat
  args : List (Option String)
  cwd : Option String
  terminal : Bool
  env : List String
  env_len : Nat
  user : Option oci_container_process_user
  capabilities : Option oci_container_process_capabilities
  no_new_privileges : Bool
deriving DecidableEq

/-- The effective content of a NULL-terminated `char **` array: the entries
before the first NULL. -/
def args_content (l : List (Option String)) : List String :=
  (l.takeWhile Option.isSome).filterMap id

/-- The request handed to the exec engine: either the file-mode pair
(container id, process file) with the execution context (exec.c line 224),
or the inline-mode constructed process (exec.c line 265). -/
inductive Request where
  | execFile (containerId : String) (path : String) (ctx : libcrun_context_t)
  | execInline (containerId : String) (process : oci_container_process)
      (ctx : libcrun_context_t)
deriving DecidableEq

/-- The execution context of a request. -/
def Request.context : Request → libcrun_context_t
  | .execFile _ _ ctx => ctx
  | .execInline _ _ ctx => ctx

/-- Embedding of `crun_command_exec` (exec.c lines 200-269).  `argv` is the
subcommand argument vector (element 0 is `"exec"`), `listen` the value of
the `LISTEN_FDS` environment variable.  The function parses the options,
checks the positional-argument count, initialises the context (container
id, detach, console socket, pid file), resolves the preserve-fd total, and
either forwards the process file or constructs the inline
`oci_container_process`. -/
def crun_command_exec (argv : List String) (listen : Option String) :
    Except ExecError Request :=
  match argpParse argv with
  | .error e => .error e
  | .ok (opts, rem) =>
    match crun_assert_n_args rem.length opts.process.isSome with
    | some e => .error e
    | none =>
      let containerId := rem.headD ""
      let ctx : libcrun_context_t :=
        { detach := opts.detach
          console_socket := opts.console_socket
          pid_file := opts.pid_file
          preserve_fds := opts.preserve_fds + listen_fds_value listen
          containerId := containerId }
      match opts.process with
      | some pfile => .ok (.execFile containerId pfile ctx)
      | none =>
        match make_oci_process_user opts.user with
        | .error e => .error e
        | .ok user =>
          .ok (.execInline containerId
            { args_len := argv.length
              args := (List.range rem.length).map (fun i => rem.get? (i + 1)) ++ [none]
              cwd := opts.cwd
              terminal := opts.tty
              env := opts.env
              env_len := opts.env.length
              user := user
              capabilities := build_capabilities_content opts.cap
              no_new_privileges := true } ctx)

/-- The resolved preserve-fd count of the produced request, `none` when the
invocation failed. -/
def preserve_fds_of (r : Except ExecError Request) : Option Int :=
  match r with
  | .ok q => some q.context.preserve_fds
  | .error _ => none

/-- The environment list of an inline request's process. -/
def env_of (r : Except ExecError Request) : Option (List String) :=
  match r with
  | .ok (.execInline _ p _) => some p.env
  | _ => none

/-- The recorded environment length of an inline request's process. -/
def env_len_of (r : Except ExecError Request) : Option Nat :=
  match r with
  | .ok (.execInline _ p _) => some p.env_len
  | _ => none

/-- The terminal flag of an inline request's process. -/
def terminal_of (r : Except ExecError Request) : Option Bool :=
  match r with
  | .ok (.execInline _ p _) => some p.terminal
  | _ => none

/-- A store of allocated `char **` string arrays, used to make the
allocation structure of the capability fan-out (exec.c lines 243-263)
explicit: a reference is an index into the heap, and `dup_array` allocates
a fresh array.  This is the part of the embedding where pointer identity
matters, so lists are held behind references rather than inlined. -/
structure CapStore where
  heap : List (List String)
deriving DecidableEq

/-- Read the array behind a reference. -/
def CapStore.get (st : CapStore) (r : Nat) : List String :=
  (st.heap.get? r).getD []

/-- Allocate a fresh array holding `v`; returns the new reference. -/
def CapStore.alloc (st : CapStore) (v : List String) : Nat × CapStore :=
  (st.heap.length, ⟨st.heap ++ [v]⟩)

/-- Overwrite the array behind a reference (a consumer mutating one of the
capability lists). -/
def CapStore.set (st : CapStore) (r : Nat) (v : List String) : CapStore :=
  ⟨st.heap.set r v⟩

/-- Embedding of `dup_array` (exec.c lines 99-110): allocate a fresh
NULL-terminated array and copy every entry of the source array into it. -/
def dup_array (st : CapStore) (r : Nat) : Nat × CapStore :=
  st.alloc (st.get r)

/-- The five capability-set references of
`oci_container_process_capabilities` as filled at exec.c lines 243-263. -/
structure oci_capabilities_refs where
  effective : Nat
  inheritable : Nat
  bounding : Nat
  ambient : Nat
  permitted : Nat
deriving DecidableEq

/-- Reference-level embedding of the capability fan-out (exec.c lines
243-263): `capabilities->effective` is assigned `exec_options.cap` itself
(the collected input array, no copy), while `inheritable`, `bounding`,
`ambient` and `permitted` are four successive `dup_array` copies of it. -/
def build_capabilities (st : CapStore) (capRef : Nat) :
    oci_capabilities_refs × CapStore :=
  let e := capRef
  let p1 := dup_array st capRef
  let p2 := dup_array p1.2 capRef
  let p3 := dup_array p2.2 capRef
  let p4 := dup_array p3.2 capRef
  (⟨e, p1.1, p2.1, p3.1, p4.1⟩, p4.2)

/-- A reference that is a deep, independent copy of source reference `src`:
it was freshly allocated (it is not a reference into the pre-existing
store) and its content in the final store equals the source's content in
the initial store. -/
def isFreshCopyOf (st stFinal : CapStore) (r src : Nat) : Prop :=
  st.heap.length ≤ r ∧ stFinal.get r = st.get src

instance (st stFinal : CapStore) (r src : Nat) :
    Decidable (isFreshCopyOf st stFinal r src) :=
  inferInstanceAs (Decidable (_ ∧ _))

/-- A store holding one collected `--cap` array, as after parsing
`-c CAP_NET_ADMIN`. -/
def capstore0 : CapStore := ⟨[["CAP_NET_ADMIN"]]⟩

/-- Auxiliary: a successful `argpLoop` run always stops at an actual token,
so the unconsumed suffix is non-empty (bounded induction on the token
list's length, since one step can consume one or two tokens). -/

lemma argpLoop_ok_ne_nil_aux :
    ∀ (n : Nat) (l : List String) (q : Bool) (opts o : exec_options_s) (rem : List String),
      l.length ≤ n → argpLoop l q opts = .ok (o, rem) → rem ≠ [] := by
  intro n
  induction n with
  | zero =>
    intro l q opts o rem hl h
    have : l = [] := List.length_eq_zero.mp (Nat.le_zero.mp hl)
    subst this
    simp [argpLoop] at h
  | succ n ih =>
    intro l q opts o rem hl h
    cases l with
    | nil => simp [argpLoop] at h
    | cons tok rest =>
      simp only [List.length_cons, Nat.succ_le_succ_iff] at hl
      simp only [argpLoop] at h
      split at h
      · obtain ⟨rfl, rfl⟩ : opts = o ∧ tok :: rest = rem := by
          simpa using h
        simp
      · split at h
        · obtain ⟨rfl, rfl⟩ : opts = o ∧ tok :: rest = rem := by simpa using h
          simp
        · obtain ⟨rfl, rfl⟩ : opts = o ∧ tok :: rest = rem := by simpa using h
          simp
        · exact ih rest _ _ _ _ hl h
        · split at h
          · simp at h
          · exact ih rest _ _ _ _ hl h
          · split at h
            · simp at h
            · refine ih _ _ _ _ _ ?_ h
              simp_all; omega
        · split at h
          · simp at h
          · exact ih rest _ _ _ _ hl h
          · split at h
            · simp at h
            · refine ih _ _ _ _ _ ?_ h
              simp_all; omega
        · obtain ⟨rfl, rfl⟩ : opts = o ∧ tok :: rest = rem := by simpa using h
          simp

lemma argpParse_ok_ne_nil (argv : List String) (opts : exec_options_s)
    (rem : List String) (h : argpParse argv = .ok (opts, rem)) : rem ≠ [] :=
  argpLoop_ok_ne_nil_aux argv.tail.length argv.tail false exec_options_init opts rem le_rfl h

lemma crun_command_exec_ok_context (argv : List String) (listen : Option String)
    (opts : exec_options_s) (rem : List String)
    (hp : argpParse argv = .ok (opts, rem)) (req : Request)
    (hr : crun_command_exec argv listen = .ok req) :
    req.context.preserve_fds = opts.preserve_fds + listen_fds_value listen := by
  simp only [crun_command_exec, hp] at hr
  rcases hassert : crun_assert_n_args rem.length opts.process.isSome with _ | e
  · simp only [hassert] at hr
    rcases hproc : opts.process with _ | pfile
    · simp only [hproc] at hr
      rcases huser : make_oci_process_user opts.user with e | user
      · simp only [huser] at hr
        exact absurd hr (by simp)
      · simp only [huser] at hr
        obtain rfl : _ = req := by simpa using hr
        rfl
    · simp only [hproc] at hr
      obtain rfl : _ = req := by simpa using hr
      rfl
  · simp only [hassert] at hr
    exact absurd hr (by simp)

lemma digit_not_space {c : Char} (h : c.isDigit = true) : isSpaceChar c = false := by
  unfold isSpaceChar
  by_cases h1 : c = ' '
  · subst h1; exact absurd h (by decide)
  by_cases h2 : c = '\t'
  · subst h2; exact absurd h (by decide)
  by_cases h3 : c = '\n'
  · subst h3; exact absurd h (by decide)
  by_cases h4 : c = '\x0b'
  · subst h4; exact absurd h (by decide)
  by_cases h5 : c = '\x0c'
  · subst h5; exact absurd h (by decide)
  by_cases h6 : c = '\r'
  · subst h6; exact absurd h (by decide)
  simp [h1, h2, h3, h4, h5, h6]

lemma digit_ne_minus {c : Char} (h : c.isDigit = true) : c ≠ '-' := by
  intro hc; subst hc; exact absurd h (by decide)

lemma digit_ne_plus {c : Char} (h : c.isDigit = true) : c ≠ '+' := by
  intro hc; subst hc; exact absurd h (by decide)

lemma takeWhile_digits_append (ds rest : List Char)
    (hd : ∀ c ∈ ds, c.isDigit = true)
    (hr : ∀ c, rest.head? = some c → c.isDigit = false) :
    (ds ++ rest).takeWhile Char.isDigit = ds ∧
      (ds ++ rest).dropWhile Char.isDigit = rest := by
  induction ds with
  | nil =>
    cases rest with
    | nil => simp
    | cons c tl =>
      have hc := hr c rfl
      simp [List.takeWhile_cons, List.dropWhile_cons, hc]
  | cons d ds ih =>
    have hdd := hd d (by simp)
    have hih := ih (fun c hc => hd c (by simp [hc]))
    simp [List.takeWhile_cons, List.dropWhile_cons, hdd, hih.1, hih.2]

lemma strtol_digits (ds rest : List Char) (hne : ds ≠ [])
    (hd : ∀ c ∈ ds, c.isDigit = true)
    (hr : ∀ c, rest.head? = some c → c.isDigit = false) :
    strtol (ds ++ rest) =
      if (dec_val ds : Int) > LONG_MAX then ⟨LONG_MAX, rest, true⟩
      else ⟨(dec_val ds : Int), rest, false⟩ := by
  obtain ⟨d, ds', rfl⟩ : ∃ d ds', ds = d :: ds' := by
    cases ds with
    | nil => exact absurd rfl hne
    | cons d ds' => exact ⟨d, ds', rfl⟩
  have hdd : d.isDigit = true := hd d (by simp)
  have hdrop : ((d :: ds') ++ rest).dropWhile isSpaceChar = (d :: ds') ++ rest := by
    simp [List.dropWhile_cons, digit_not_space hdd]
  have hsign : ¬(((d :: ds') ++ rest).head? = some '-' ∨ ((d :: ds') ++ rest).head? = some '+') := by
    simp only [List.cons_append, List.head?_cons]
    rintro (hc | hc) <;> injection hc with hc
    · exact digit_ne_minus hdd hc
    · exact digit_ne_plus hdd hc
  have htake := takeWhile_digits_append (d :: ds') rest hd hr
  have hneg : (decide (((d :: ds') ++ rest).head? = some '-') : Bool) = false := by
    simp only [List.cons_append, List.head?_cons]
    simp [digit_ne_minus hdd]
  simp only [strtol]
  rw [hdrop, if_neg hsign, htake.1, htake.2, hneg]
  simp only [List.isEmpty_cons, Bool.false_eq_true, if_false]
  split
  · rfl
  · rename_i hle
    have h0 : (0 : Int) ≤ (dec_val (d :: ds') : Int) := Int.ofNat_nonneg _
    rw [if_neg (show ¬((dec_val (d :: ds') : Int) < LONG_MIN) by unfold LONG_MIN; omega)]

lemma make_oci_process_user_mk (l : List Char) :
    make_oci_process_user (some (String.mk l)) = make_oci_process_user_chars (some l) := rfl

lemma nondigit_head_cons {c : Char} (hc : c.isDigit = false) (tl : List Char) :
    ∀ x, (c :: tl).head? = some x → x.isDigit = false := by
  intro x hx
  injection hx with hx
  subst hx
  exact hc

lemma user_parse_uid_only (ds : List Char) (hne : ds ≠ [])
    (hd : ∀ c ∈ ds, c.isDigit = true) (hle : (dec_val ds : Int) ≤ LONG_MAX) :
    make_oci_process_user (some (String.mk ds)) = .ok (some ⟨(dec_val ds : Int), 0⟩) := by
  rw [make_oci_process_user_mk]
  simp only [make_oci_process_user_chars]
  have h := strtol_digits ds [] hne hd (by simp)
  rw [List.append_nil] at h
  rw [h, if_neg (not_lt.mpr hle)]
  simp

lemma user_parse_uid_gid (ds ts : List Char) (hne : ds ≠ []) (hnet : ts ≠ [])
    (hd : ∀ c ∈ ds, c.isDigit = true) (hdt : ∀ c ∈ ts, c.isDigit = true)
    (hle : (dec_val ds : Int) ≤ LONG_MAX) (hlet : (dec_val ts : Int) ≤ LONG_MAX) :
    make_oci_process_user (some (String.mk (ds ++ ':' :: ts))) =
      .ok (some ⟨(dec_val ds : Int), (dec_val ts : Int)⟩) := by
  rw [make_oci_process_user_mk]
  simp only [make_oci_process_user_chars]
  have h1 := strtol_digits ds (':' :: ts) hne hd (nondigit_head_cons (by decide) ts)
  rw [h1, if_neg (not_lt.mpr hle)]
  have h2 := strtol_digits ts [] hnet hdt (by simp)
  rw [List.append_nil] at h2
  simp only [h2, if_neg (not_lt.mpr hlet)]
  simp

lemma user_parse_uid_erange (ds rest : List Char) (hne : ds ≠ [])
    (hd : ∀ c ∈ ds, c.isDigit = true)
    (hr : ∀ c, rest.head? = some c → c.isDigit = false)
    (hbig : LONG_MAX < (dec_val ds : Int)) :
    make_oci_process_user (some (String.mk (ds ++ rest))) = .error .InvalidUid := by
  rw [make_oci_process_user_mk]
  simp only [make_oci_process_user_chars]
  rw [strtol_digits ds rest hne hd hr, if_pos hbig]
  simp

lemma user_parse_gid_erange (ds ts : List Char) (hne : ds ≠ []) (hnet : ts ≠ [])
    (hd : ∀ c ∈ ds, c.isDigit = true) (hdt : ∀ c ∈ ts, c.isDigit = true)
    (hle : (dec_val ds : Int) ≤ LONG_MAX) (hbig : LONG_MAX < (dec_val ts : Int)) :
    make_oci_process_user (some (String.mk (ds ++ ':' :: ts))) = .error .InvalidGid := by
  rw [make_oci_process_user_mk]
  simp only [make_oci_process_user_chars]
  rw [strtol_digits ds (':' :: ts) hne hd (nondigit_head_cons (by decide) ts),
    if_neg (not_lt.mpr hle)]
  have h2 := strtol_digits ts [] hnet hdt (by simp)
  rw [List.append_nil] at h2
  simp only [h2, if_pos hbig]
  simp

lemma user_parse_bad_sep (ds : List Char) (c : Char) (tl : List Char) (hne : ds ≠ [])
    (hd : ∀ x ∈ ds, x.isDigit = true) (hc : c.isDigit = false) (hcol : c ≠ ':')
    (hle : (dec_val ds : Int) ≤ LONG_MAX) :
    make_oci_process_user (some (String.mk (ds ++ c :: tl))) = .error .InvalidUserspec := by
  rw [make_oci_process_user_mk]
  simp only [make_oci_process_user_chars]
  rw [strtol_digits ds (c :: tl) hne hd (nondigit_head_cons hc tl), if_neg (not_lt.mpr hle)]
  simp [hcol]

lemma user_parse_gid_trailing (ds ts : List Char) (c : Char) (tl : List Char)
    (hne : ds ≠ []) (hnet : ts ≠ [])
    (hd : ∀ x ∈ ds, x.isDigit = true) (hdt : ∀ x ∈ ts, x.isDigit = true)
    (hc : c.isDigit = false)
    (hle : (dec_val ds : Int) ≤ LONG_MAX) (hlet : (dec_val ts : Int) ≤ LONG_MAX) :
    make_oci_process_user (some (String.mk (ds ++ ':' :: (ts ++ c :: tl)))) =
      .error .InvalidUserspec := by
  rw [make_oci_process_user_mk]
  simp only [make_oci_process_user_chars]
  rw [strtol_digits ds (':' :: (ts ++ c :: tl)) hne hd (nondigit_head_cons (by decide) _),
    if_neg (not_lt.mpr hle)]
  have h2 := strtol_digits ts (c :: tl) hnet hdt (nondigit_head_cons hc tl)
  simp only [h2, if_neg (not_lt.mpr hlet)]
  simp

lemma CapStore.get_append_old (heap l : List (List String)) (r : Nat)
    (h : r < heap.length) :
    CapStore.get ⟨heap ++ l⟩ r = CapStore.get ⟨heap⟩ r := by
  simp [CapStore.get, List.getElem?_append_left h]

lemma CapStore.get_append_new (heap l : List (List String)) (k : Nat) :
    CapStore.get ⟨heap ++ l⟩ (heap.length + k) = (l.get? k).getD [] := by
  simp [CapStore.get, List.getElem?_append_right (Nat.le_add_right _ _), Nat.add_sub_cancel_left]

lemma CapStore.get_set_ne (st : CapStore) (x y : Nat) (v : List String)
    (h : x ≠ y) : (st.set x v).get y = st.get y := by
  simp [CapStore.set, CapStore.get, List.getElem?_set_ne h]

lemma build_capabilities_eq (st : CapStore) (r : Nat) (h : r < st.heap.length) :
    build_capabilities st r =
      (⟨r, st.heap.length, st.heap.length + 1, st.heap.length + 2, st.heap.length + 3⟩,
       ⟨st.heap ++ [st.get r, st.get r, st.get r, st.get r]⟩) := by
  have hg : ∀ l : List (List String), CapStore.get ⟨st.heap ++ l⟩ r = st.get r := by
    intro l
    have := CapStore.get_append_old st.heap l r h
    simpa [CapStore.get] using this
  simp only [build_capabilities, dup_array, CapStore.alloc, List.append_assoc]
  simp [hg, List.length_append]

/-- Claim C6: user/group spec parsing: an absent user spec yields no
ProcessUser; a decimal-numeral string with value in range yields
`{uid, gid: 0}`; `UID:GID` with both numerals in range yields `{uid, gid}`;
an out-of-range UID fails as InvalidUid, an out-of-range GID as InvalidGid;
a non-colon character after the UID digits, or trailing non-numeric
characters after the GID digits, fail as InvalidUserspec. -/
theorem C6_userspec_parsing :
    make_oci_process_user none = .ok none
  ∧ (∀ ds : List Char, ds ≠ [] → (∀ c ∈ ds, c.isDigit = true) →
      (dec_val ds : Int) ≤ LONG_MAX →
      make_oci_process_user (some (String.mk ds)) =
        .ok (some ⟨(dec_val ds : Int), 0⟩))
  ∧ (∀ ds ts : List Char, ds ≠ [] → ts ≠ [] →
      (∀ c ∈ ds, c.isDigit = true) → (∀ c ∈ ts, c.isDigit = true) →
      (dec_val ds : Int) ≤ LONG_MAX → (dec_val ts : Int) ≤ LONG_MAX →
      make_oci_process_user (some (String.mk (ds ++ ':' :: ts))) =
        .ok (some ⟨(dec_val ds : Int), (dec_val ts : Int)⟩))
  ∧ (∀ ds rest : List Char, ds ≠ [] → (∀ c ∈ ds, c.isDigit = true) →
      (∀ c, rest.head? = some c → c.isDigit = false) →
      LONG_MAX < (dec_val ds : Int) →
      make_oci_process_user (some (String.mk (ds ++ rest))) = .error .InvalidUid)
  ∧ (∀ ds ts : List Char, ds ≠ [] → ts ≠ [] →
      (∀ c ∈ ds, c.isDigit = true) → (∀ c ∈ ts, c.isDigit = true) →
      (dec_val ds : Int) ≤ LONG_MAX → LONG_MAX < (dec_val ts : Int) →
      make_oci_process_user (some (String.mk (ds ++ ':' :: ts))) = .error .InvalidGid)
  ∧ (∀ (ds : List Char) (c : Char) (tl : List Char), ds ≠ [] →
      (∀ x ∈ ds, x.isDigit = true) → c.isDigit = false → c ≠ ':' →
      (dec_val ds : Int) ≤ LONG_MAX →
      make_oci_process_user (some (String.mk (ds ++ c :: tl))) = .error .InvalidUserspec)
  ∧ (∀ (ds ts : List Char) (c : Char) (tl : List Char), ds ≠ [] → ts ≠ [] →
      (∀ x ∈ ds, x.isDigit = true) → (∀ x ∈ ts, x.isDigit = true) →
      c.isDigit = false →
      (dec_val ds : Int) ≤ LONG_MAX → (dec_val ts : Int) ≤ LONG_MAX →
      make_oci_process_user (some (String.mk (ds ++ ':' :: (ts ++ c :: tl)))) =
        .error .InvalidUserspec) :=
  ⟨rfl, user_parse_uid_only, user_parse_uid_gid, user_parse_uid_erange,
   user_parse_gid_erange, user_parse_bad_sep, user_parse_gid_trailing⟩

/-- Witness for C6 at the concrete spec `7:8`. -/
theorem C6_witness :
    make_oci_process_user (some (String.mk ['7', ':', '8'])) =
      .ok (some ⟨(dec_val ['7'] : Int), (dec_val ['8'] : Int)⟩) :=
  C6_userspec_parsing.2.2.1 ['7'] ['8'] (by decide) (by decide) (by decide)
    (by decide) (by decide) (by decide)

/-- Claim C10: the empty user spec string parses without error to
`{uid: 0, gid: 0}`, the same result as the explicit spec `0`, because the
numeric parse of an empty string yields 0 with the end pointer at the
terminator. -/
theorem C10_empty_userspec :
    make_oci_process_user (some "") = .ok (some ⟨0, 0⟩)
  ∧ make_oci_process_user (some "") = make_oci_process_user (some "0") := by
  exact ⟨by decide, by decide⟩

/-- Claim C9: the terminal flag is false when `-t` was never given; `-t`
with no argument, or with any argument other than exactly `"false"` or
`"no"`, yields true; `-t false` and `-t no` (attached forms) yield false —
both at the `parse_opt` level and on the constructed process. -/
theorem C9_terminal_flag :
    exec_options_init.tty = false
  ∧ parseTty none = true
  ∧ (∀ a : String, a ≠ "false" → a ≠ "no" → parseTty (some a) = true)
  ∧ parseTty (some "false") = false
  ∧ parseTty (some "no") = false
  ∧ terminal_of (crun_command_exec ["exec", "cont", "sh"] none) = some false
  ∧ terminal_of (crun_command_exec ["exec", "-t", "cont", "sh"] none) = some true
  ∧ terminal_of (crun_command_exec ["exec", "-tfalse", "cont", "sh"] none) = some false
  ∧ terminal_of (crun_command_exec ["exec", "-tno", "cont", "sh"] none) = some false := by
  refine ⟨by decide, by decide, ?_, by decide, by decide, by decide, by decide,
    by decide, by decide⟩
  intro a h1 h2
  simp [parseTty, h1, h2]

/-- Witness for C9 at the argument `yes`. -/
theorem C9_witness : parseTty (some "yes") = true :=
  C9_terminal_flag.2.2.1 "yes" (by decide) (by decide)

lemma foldl_append_env (l acc : List String) : l.foldl append_env acc = acc ++ l := by
  induction l generalizing acc with
  | nil => simp
  | cons x xs ih => simp [append_env, ih]

/-- Claim C8: the environment list preserves insertion order end-to-end,
with no deduplication and no syntax validation: each `-e` occurrence
appends one entry, `-e A=1 -e B=2 -e A=3` yields exactly that list as the
process environment, and an arbitrary string argument is accepted
unchanged. -/
theorem C8_env_order :
    (∀ l : List String, l.foldl append_env [] = l)
  ∧ env_of (crun_command_exec
      ["exec", "-e", "A=1", "-e", "B=2", "-e", "A=3", "cont", "sh"] none) =
      some ["A=1", "B=2", "A=3"]
  ∧ env_len_of (crun_command_exec
      ["exec", "-e", "A=1", "-e", "B=2", "-e", "A=3", "cont", "sh"] none) = some 3
  ∧ (∀ s : String,
      env_of (crun_command_exec ["exec", "-e", s, "cont", "sh"] none) = some [s]) := by
  refine ⟨?_, by decide, by decide, ?_⟩
  · intro l
    simpa using foldl_append_env l []
  · intro s
    rfl

/-- Claim C7 (corrected): in the capability fan-out, `effective` is the
collected input array itself (aliased, not a fresh copy), while the other
four sets are fresh `dup_array` copies; the five references are pairwise
distinct and all carry the input content in order, so mutating any one of
the five is not observable through another; with no `--cap` flag no
capability set is attached at all. -/
theorem C7_capability_fanout (st : CapStore) (r : Nat) (h : r < st.heap.length) :
    (build_capabilities st r).1.effective = r
  ∧ isFreshCopyOf st (build_capabilities st r).2 (build_capabilities st r).1.inheritable r
  ∧ isFreshCopyOf st (build_capabilities st r).2 (build_capabilities st r).1.bounding r
  ∧ isFreshCopyOf st (build_capabilities st r).2 (build_capabilities st r).1.ambient r
  ∧ isFreshCopyOf st (build_capabilities st r).2 (build_capabilities st r).1.permitted r
  ∧ (build_capabilities st r).2.get (build_capabilities st r).1.effective = st.get r
  ∧ List.Pairwise (· ≠ ·)
      [(build_capabilities st r).1.effective, (build_capabilities st r).1.inheritable,
       (build_capabilities st r).1.bounding, (build_capabilities st r).1.ambient,
       (build_capabilities st r).1.permitted]
  ∧ (∀ x y : Nat, x ≠ y → ∀ v,
      ((build_capabilities st r).2.set x v).get y = (build_capabilities st r).2.get y)
  ∧ build_capabilities_content ([] : List String) = none
  ∧ (∀ l : List String, l ≠ [] → build_capabilities_content l = some ⟨l, l, l, l, l⟩) := by
  rw [build_capabilities_eq st r h]
  dsimp only
  have hnew := CapStore.get_append_new st.heap [st.get r, st.get r, st.get r, st.get r]
  refine ⟨rfl, ⟨?_, ?_⟩, ⟨?_, ?_⟩, ⟨?_, ?_⟩, ⟨?_, ?_⟩, ?_, ?_, ?_, ?_, ?_⟩
  · exact le_rfl
  · simpa using hnew 0
  · omega
  · simpa using hnew 1
  · omega
  · simpa using hnew 2
  · omega
  · simpa using hnew 3
  · exact CapStore.get_append_old st.heap _ r h
  · refine List.Pairwise.cons ?_ (List.Pairwise.cons ?_ (List.Pairwise.cons ?_
      (List.Pairwise.cons ?_ (List.Pairwise.cons ?_ List.Pairwise.nil))))
    · intro x hx
      simp only [List.mem_cons, List.not_mem_nil, or_false] at hx
      rcases hx with rfl | rfl | rfl | rfl <;> omega
    · intro x hx
      simp only [List.mem_cons, List.not_mem_nil, or_false] at hx
      rcases hx with rfl | rfl | rfl <;> omega
    · intro x hx
      simp only [List.mem_cons, List.not_mem_nil, or_false] at hx
      rcases hx with rfl | rfl <;> omega
    · intro x hx
      simp only [List.mem_cons, List.not_mem_nil, or_false] at hx
      rcases hx with rfl
      omega
    · intro x hx
      simp at hx
  · intro x y hxy v
    exact CapStore.get_set_ne _ x y v hxy
  · rfl
  · intro l hl
    simp [build_capabilities_content, hl]

/-- Witness for C7: on a store holding the collected list
`["CAP_NET_ADMIN"]`, the inheritable set is a fresh copy of it. -/
theorem C7_witness :
    isFreshCopyOf capstore0 (build_capabilities capstore0 0).2
      (build_capabilities capstore0 0).1.inheritable 0 :=
  (C7_capability_fanout capstore0 0 (by decide)).2.1

/-- Counterexample for C7 as stated: the effective set is the input array
itself — the same reference, not a deep, independent copy of the input. -/
theorem C7_counterexample :
    (build_capabilities capstore0 0).1.effective = 0
  ∧ ¬ isFreshCopyOf capstore0 (build_capabilities capstore0 0).2
      (build_capabilities capstore0 0).1.effective 0 := by
  exact ⟨rfl, by decide⟩

/-- Claim C1 (corrected): positional-argument validation by mode.  When
every `argv` element is consumed as an option (zero positional arguments),
parsing itself fails with MissingContainerId — in both modes — and the
error propagates with no request produced; on a successful parse the
positional residue is non-empty, file mode fails with ArgumentCountError
for any count other than exactly one, and inline mode fails with
MissingContainerId for a count of exactly one. -/
theorem C1_argument_count (argv : List String) (listen : Option String) :
    (∀ (opts : exec_options_s) (q : Bool),
      argpLoop [] q opts = .error .MissingContainerId)
  ∧ (∀ e, argpParse argv = .error e → crun_command_exec argv listen = .error e)
  ∧ (∀ opts rem, argpParse argv = .ok (opts, rem) →
      rem ≠ []
      ∧ (opts.process.isSome = true → rem.length ≠ 1 →
          crun_command_exec argv listen = .error .ArgumentCountError)
      ∧ (opts.process = none → rem.length = 1 →
          crun_command_exec argv listen = .error .MissingContainerId)) := by
  refine ⟨fun opts q => rfl, ?_, ?_⟩
  · intro e h
    simp [crun_command_exec, h]
  · intro opts rem hp
    refine ⟨argpParse_ok_ne_nil argv opts rem hp, ?_, ?_⟩
    · intro hf hn
      simp [crun_command_exec, hp, crun_assert_n_args, hf, hn]
    · intro hproc hn
      simp [crun_command_exec, hp, crun_assert_n_args, hproc, hn]

/-- Witness for C1: file mode with two positional arguments fails with
ArgumentCountError. -/
theorem C1_witness :
    crun_command_exec ["exec", "-p", "f.json", "c1", "c2"] none =
      .error .ArgumentCountError :=
  ((C1_argument_count ["exec", "-p", "f.json", "c1", "c2"] none).2.2
    { exec_options_init with process := some "f.json" } ["c1", "c2"]
    (by decide)).2.1 (by decide) (by decide)

/-- Counterexample for C1 as stated: file mode with zero positional
arguments fails with MissingContainerId (the no-arguments check at
ARGP_KEY_NO_ARGS fires inside `argp_parse`, before the count check of line
209 is reached), not with ArgumentCountError as the claim states. -/
theorem C1_counterexample :
    crun_command_exec ["exec", "-p", "proc.json"] none = .error .MissingContainerId
  ∧ ExecError.MissingContainerId ≠ ExecError.ArgumentCountError := by
  exact ⟨by decide, by decide⟩

/-- Claim C2 (code bug): the invocation
`-u 1000:1000 -c CAP_NET_ADMIN mycontainer -- /bin/sh` yields the claimed
user identity, capability sets and no_new_privileges flag, but the stored
argument-vector length is `argc` = 8 (not 1, the number of tokens after
the container identifier) and the NULL-terminated argument content is
`["--", "/bin/sh"]` (option parsing stops at the first positional token,
so the later `--` is copied into the vector), not `["/bin/sh"]`. -/
theorem C2_example_invocation :
    crun_command_exec
        ["exec", "-u", "1000:1000", "-c", "CAP_NET_ADMIN", "mycontainer", "--", "/bin/sh"]
        none
      = .ok (.execInline "mycontainer"
          { args_len := 8
            args := [some "--", some "/bin/sh", none, none]
            cwd := none
            terminal := false
            env := []
            env_len := 0
            user := some { uid := 1000, gid := 1000 }
            capabilities := some { effective := ["CAP_NET_ADMIN"],
                                   inheritable := ["CAP_NET_ADMIN"],
                                   bounding := ["CAP_NET_ADMIN"],
                                   ambient := ["CAP_NET_ADMIN"],
                                   permitted := ["CAP_NET_ADMIN"] }
            no_new_privileges := true }
          { detach := false, console_socket := none, pid_file := none,
            preserve_fds := 0, containerId := "mycontainer" })
  ∧ args_content [some "--", some "/bin/sh", none, none] = ["--", "/bin/sh"]
  ∧ ["--", "/bin/sh"] ≠ ["/bin/sh"]
  ∧ (8 : Nat) ≠ 1 := by
  exact ⟨by decide, by decide, by decide, by decide⟩

/-- Claim C3 (corrected): the resolved preserve-fd count handed to the
exec engine is the collected explicit value plus the `strtoll` value of
`LISTEN_FDS` (0 when the variable is absent, with no error raised); the
example `--preserve-fds 2` with `LISTEN_FDS=3` resolves to 5. -/
theorem C3_preserve_fds (argv : List String) (listen : Option String)
    (opts : exec_options_s) (rem : List String)
    (hp : argpParse argv = .ok (opts, rem)) :
    (∀ req, crun_command_exec argv listen = .ok req →
      req.context.preserve_fds = opts.preserve_fds + listen_fds_value listen)
  ∧ listen_fds_value none = 0
  ∧ preserve_fds_of
      (crun_command_exec ["exec", "--preserve-fds", "2", "cont", "sh"] (some "3"))
      = some 5 :=
  ⟨fun req hr => crun_command_exec_ok_context argv listen opts rem hp req hr,
   rfl, by decide⟩

/-- Witness for C3 at the example invocation. -/
theorem C3_witness :
    preserve_fds_of
      (crun_command_exec ["exec", "--preserve-fds", "2", "cont", "sh"] (some "3"))
      = some 5 :=
  (C3_preserve_fds ["exec", "cont", "sh"] none exec_options_init ["cont", "sh"]
    (by decide)).2.2

/-- Counterexample for C3 as stated: `LISTEN_FDS=3x` is not parseable as
an integer, so the claim says it contributes 0, but the code adds
`strtoll ("3x", NULL, 10)` = 3, the value of the longest numeric prefix. -/
theorem C3_counterexample :
    preserve_fds_of (crun_command_exec ["exec", "cont", "sh"] (some "3x")) = some 3
  ∧ spec_listen_fds_value (some "3x") = 0
  ∧ (3 : Int) ≠ 0 := by
  exact ⟨by decide, by decide, by decide⟩

/-- Claim C4 (corrected): a `--preserve-fds` argument is never fatal: the
handler stores `strtoul (arg, NULL, 10)` with no validation, so a
non-numeric argument silently becomes 0 (or the value of its numeric
prefix) and the invocation proceeds to produce a request. -/
theorem C4_preserve_fds_not_fatal :
    (∀ s : String,
      preserve_fds_of (crun_command_exec ["exec", "--preserve-fds", s, "cont", "sh"] none)
        = some (strtoul_int s))
  ∧ strtoul_int "abc" = 0
  ∧ strtoul_int "12abc" = 12 := by
  refine ⟨?_, by decide, by decide⟩
  intro s
  show some (strtoul_int s + 0) = some (strtoul_int s)
  rw [Int.add_zero]

/-- Counterexample for C4 as stated: `--preserve-fds abc` does not
terminate the invocation — a request object is produced, with the count
silently downgraded to 0. -/
theorem C4_counterexample :
    crun_command_exec ["exec", "--preserve-fds", "abc", "cont", "sh"] none
      = .ok (.execInline "cont"
          { args_len := 5, args := [some "sh", none, none], cwd := none,
            terminal := false, env := [], env_len := 0, user := none,
            capabilities := none, no_new_privileges := true }
          { detach := false, console_socket := none, pid_file := none,
            preserve_fds := 0, containerId := "cont" })
  ∧ preserve_fds_of
      (crun_command_exec ["exec", "--preserve-fds", "abc", "cont", "sh"] none)
      = some 0 := by
  exact ⟨by decide, by decide⟩

/-- Claim C5 (corrected): the total preserve-fd count of a produced
request is non-negative provided the collected explicit value and the
`LISTEN_FDS` contribution are each non-negative; a negative `LISTEN_FDS`
value drives it negative. -/
theorem C5_preserve_fds_nonneg (argv : List String) (listen : Option String)
    (opts : exec_options_s) (rem : List String)
    (hp : argpParse argv = .ok (opts, rem))
    (h1 : 0 ≤ opts.preserve_fds) (h2 : 0 ≤ listen_fds_value listen) :
    ∀ req, crun_command_exec argv listen = .ok req →
      0 ≤ req.context.preserve_fds := by
  intro req hr
  rw [crun_command_exec_ok_context argv listen opts rem hp req hr]
  exact add_nonneg h1 h2

/-- Witness for C5 at a flagless invocation with `LISTEN_FDS` unset. -/
theorem C5_witness :
    0 ≤ (Request.execInline "cont"
      { args_len := 3, args := [some "sh", none, none], cwd := none,
        terminal := false, env := [], env_len := 0, user := none,
        capabilities := none, no_new_privileges := true }
      { detach := false, console_socket := none, pid_file := none,
        preserve_fds := 0, containerId := "cont" }).context.preserve_fds :=
  C5_preserve_fds_nonneg ["exec", "cont", "sh"] none exec_options_init
    ["cont", "sh"] (by decide) (by decide) (by decide) _ (by decide)

/-- Counterexample for C5 as stated: with `LISTEN_FDS=-5` and no
`--preserve-fds` flag the count handed to the exec engine is -5 < 0. -/
theorem C5_counterexample :
    preserve_fds_of (crun_command_exec ["exec", "cont", "sh"] (some "-5")) = some (-5)
  ∧ ¬(0 : Int) ≤ (-5 : Int) := by
  exact ⟨by decide, by decide⟩
